import Mathlib

/-!
Order-history scraper (`index.js`): page-count parsing, order-row parsing and fetching.

A shallow embedding of `src/index.js`.

* JavaScript strings are lists of characters (`Str`).
* The HTML query library is an external collaborator: a parsed document is
  represented by what the three selector queries of the program return on it
  (`Markup`), each matched element by its text content.
* JavaScript numbers are double-precision: `JSNum` holds `NaN`, the two
  infinities and the integer-valued doubles, which are the values the program
  keeps.  `parseInt` rounds the value it reads to the nearest double, and the
  quotient by the page size is rounded to the nearest double before `Math.ceil`
  is applied, both with ties to even.  Negative zero is identified with zero
  (the program only tests such a value for truthiness and uses it as a length).
* An array has at most `2 ^ 32 - 1` elements: `Array.from` throws a
  `RangeError` for a longer one.
* The HTTP client is a function from requests to responses (`Http`); a run of
  `fetchOrders` records the requests it issued.  The logging calls are left out.
-/

set_option autoImplicit false

namespace AmazonOrders

/-! ## Strings -/

/-- JavaScript string values, as character lists. -/
abbrev Str := List Char

/-- ECMAScript `WhiteSpace` and `LineTerminator` code points: the characters removed by
`String.prototype.trim` and skipped by `parseInt` and `parseFloat`. -/
def isWhiteSpace (c : Char) : Bool :=
  let n := c.toNat
  n == 0x09 || n == 0x0A || n == 0x0B || n == 0x0C || n == 0x0D || n == 0x20 ||
  n == 0xA0 || n == 0x1680 || (0x2000 ≤ n && n ≤ 0x200A) || n == 0x2028 ||
  n == 0x2029 || n == 0x202F || n == 0x205F || n == 0x3000 || n == 0xFEFF

/-- Leading white space removed (the first step of `parseInt` and `parseFloat`). -/
def trimStart (s : Str) : Str := s.dropWhile isWhiteSpace

/-- Trailing white space removed. -/
def trimEnd (s : Str) : Str := (s.reverse.dropWhile isWhiteSpace).reverse

/-- `String.prototype.trim`. -/
def trim (s : Str) : Str := trimEnd (trimStart s)

/-- `String.prototype.split` with a one-character separator: the pieces between the
occurrences of `sep`; never empty (`"".split(" ")` is `[""]`). -/
def split (sep : Char) : Str → List Str
  | [] => [[]]
  | c :: cs =>
    if c = sep then [] :: split sep cs
    else
      match split sep cs with
      | [] => [[c]]
      | t :: ts => (c :: t) :: ts

/-- `String.prototype.replace` with one-character pattern and replacement given as strings:
only the first occurrence is replaced. -/
def replace (pat rep : Char) : Str → Str
  | [] => []
  | c :: cs => if c = pat then rep :: cs else c :: replace pat rep cs

/-! ## Numbers -/

/-- JavaScript number values the program keeps: `NaN`, an integer-valued double, or
`Infinity` (`-Infinity` when `negative`). -/
inductive JSNum where
  | nan
  | int (z : Int)
  | inf (negative : Bool)
  deriving DecidableEq, Repr

/-- The quotient `n / D` rounded to the nearest integer, a tie going to the even one. -/
def roundHalfEven (n D : Nat) : Nat :=
  let m := n / D
  let r := n % D
  if D < 2 * r ∨ (2 * r = D ∧ m % 2 = 1) then m + 1 else m

/-- The least `s`, searched from the given one upwards, with `2 ^ 52 ≤ (x / d) * 2 ^ s`:
the number of fraction bits of the double nearest to a quotient below `2 ^ 53`. -/
def mantissaShift (x d : Nat) : Nat → Nat → Nat
  | 0, s => s
  | fuel + 1, s => if 2 ^ 52 * d ≤ x * 2 ^ s then s else mantissaShift x d fuel (s + 1)

/-- The least `e`, searched from the given one upwards, with `x / d < 2 ^ 53 * 2 ^ e`: the
number of low bits a double cannot hold of a quotient from `2 ^ 53` on. -/
def exponentShift (x d : Nat) : Nat → Nat → Nat
  | 0, e => e
  | fuel + 1, e => if x < 2 ^ 53 * d * 2 ^ e then e else exponentShift x d fuel (e + 1)

/-- The double nearest to a natural number, ties to even; `none` is `Infinity` (the result
from `2 ^ 1024 - 2 ^ 970` on). -/
def nearestDouble (n : Nat) : Option Nat :=
  if n < 2 ^ 53 then some n
  else
    let e := exponentShift n 1 n 0
    let m := roundHalfEven n (2 ^ e)
    if e < 971 ∨ (e = 971 ∧ m < 2 ^ 53) then some (m * 2 ^ e) else none

/-- The double nearest to the quotient `x / d` of two natural numbers, `d` positive, the
result of the operator `/` on them: a pair `(m, s)` standing for `m / 2 ^ s`. -/
def divDouble (x d : Nat) : Nat × Nat :=
  if x = 0 then (0, 0)
  else if x < 2 ^ 53 * d then
    let s := mantissaShift x d (52 + d) 0
    (roundHalfEven (x * 2 ^ s) d, s)
  else
    let e := exponentShift x d x 0
    (roundHalfEven x (d * 2 ^ e) * 2 ^ e, 0)

/-- `Math.ceil(x / d)` on natural numbers. -/
def ceilOfDiv (x d : Nat) : Nat :=
  ((divDouble x d).1 + 2 ^ (divDouble x d).2 - 1) / 2 ^ (divDouble x d).2

/-- `Math.floor(x / d)` on natural numbers. -/
def floorOfDiv (x d : Nat) : Nat := (divDouble x d).1 / 2 ^ (divDouble x d).2

/-- Value of a digit character in the given radix, if it is one. -/
def digitValue (radix : Nat) (c : Char) : Option Nat :=
  let n := c.toNat
  let v :=
    if 48 ≤ n ∧ n ≤ 57 then some (n - 48)
    else if 97 ≤ n ∧ n ≤ 122 then some (n - 97 + 10)
    else if 65 ≤ n ∧ n ≤ 90 then some (n - 65 + 10)
    else none
  v.bind fun d => if d < radix then some d else none

/-- Whether `c` is a digit of the radix. -/
def isRadixDigit (radix : Nat) (c : Char) : Bool := (digitValue radix c).isSome

/-- Mathematical value of a digit string, most significant digit first. -/
def digitsValue (radix : Nat) (ds : Str) : Nat :=
  ds.foldl (fun acc c => acc * radix + (digitValue radix c).getD 0) 0

/-- The digits `parseInt` reads: the longest run of radix digits at the front. -/
def leadingDigits (radix : Nat) (s : Str) : Str := s.takeWhile (isRadixDigit radix)

/-- `parseInt(string)` with no radix argument: leading white space is skipped, a sign is
read, `0x`/`0X` selects radix 16, and the longest run of digits is converted to the nearest
double; `NaN` when that run is empty. -/
def parseInt (input : Str) : JSNum :=
  let s := trimStart input
  let negative : Bool := s.head? = some '-'
  let s := if s.head? = some '-' ∨ s.head? = some '+' then s.tail else s
  let hex : Bool := s.take 2 = ['0', 'x'] ∨ s.take 2 = ['0', 'X']
  let radix := if hex then 16 else 10
  let s := if hex then s.drop 2 else s
  let z := leadingDigits radix s
  if z.isEmpty then JSNum.nan
  else
    match nearestDouble (digitsValue radix z) with
    | none => JSNum.inf negative
    | some v => JSNum.int (if negative then -(v : Int) else (v : Int))

/-- `Math.ceil(x / d)` for a positive integer divisor `d`: the quotient is rounded to the
nearest double, then rounded up to an integer. -/
def ceilDiv (x : JSNum) (d : Nat) : JSNum :=
  match x with
  | JSNum.nan => JSNum.nan
  | JSNum.inf negative => JSNum.inf negative
  | JSNum.int z =>
    if 0 ≤ z then JSNum.int (ceilOfDiv z.toNat d)
    else JSNum.int (-(floorOfDiv (-z).toNat d : Int))

/-- Truthiness of a value that is `null` or a number: `null`, `NaN` and `0` are falsy. -/
def truthyNum : Option JSNum → Bool
  | none => false
  | some JSNum.nan => false
  | some (JSNum.int z) => z ≠ 0
  | some (JSNum.inf _) => true

/-! ## Documents -/

/-- One element matched by `ORDERS_SELECTOR`: the text contents of the elements matched
inside it by the title selector and by the price selector. -/
structure OrderRow where
  titleEls : List Str
  priceEls : List Str
  deriving DecidableEq, Repr

/-- A loaded document, as seen through the selector queries of the program: the text
contents of the elements matching `ORDER_COUNT_SELECTOR`, and the elements matching
`ORDERS_SELECTOR` in document order. -/
structure Markup where
  orderCountEls : List Str
  orderRows : List OrderRow
  deriving DecidableEq, Repr

/-- The `text()` method of a selection: the text contents of its elements, concatenated
(the empty string for an empty selection). -/
def text (els : List Str) : Str := els.flatten

/-- The page size constant of the source. -/
def ITEMS_PER_PAGE : Nat := 10

/-- `parsePageCount`; the result `null` is `none`.  The test `!amount` holds when `amount`
is `undefined` and when it is the empty string. -/
def parsePageCount (content : Markup) : Option JSNum :=
  let el := content.orderCountEls
  match (split ' ' (text el)).head? with
  | none => none
  | some amount =>
    if amount.isEmpty then none
    else some (ceilDiv (parseInt amount) ITEMS_PER_PAGE)


/-! ## Floating-point literals -/

/-- A decimal digit character. -/
def isDecimalDigit (c : Char) : Bool := isRadixDigit 10 c

/-- The grammar production `ExponentPart`, optional: nothing, or `e`/`E`, an optional sign
and at least one digit. -/
def isOptExponentPart : Str → Bool
  | [] => true
  | c :: r =>
    (c = 'e' || c = 'E') &&
      (let ds := if r.head? = some '+' ∨ r.head? = some '-' then r.tail else r
       !ds.isEmpty && ds.all isDecimalDigit)

/-- The grammar production `StrUnsignedDecimalLiteral`. -/
def isStrUnsignedDecimalLiteral (s : Str) : Bool :=
  s = "Infinity".toList ||
    (let ds := s.takeWhile isDecimalDigit
     let r := s.dropWhile isDecimalDigit
     match r with
     | '.' :: r1 =>
       let fs := r1.takeWhile isDecimalDigit
       (!ds.isEmpty || !fs.isEmpty) && isOptExponentPart (r1.dropWhile isDecimalDigit)
     | _ => !ds.isEmpty && isOptExponentPart r)

/-- The grammar production `StrDecimalLiteral`: a whole string that is a floating-point
literal, with an optional sign. -/
def isStrDecimalLiteral (s : Str) : Bool :=
  isStrUnsignedDecimalLiteral
    (if s.head? = some '+' ∨ s.head? = some '-' then s.tail else s)

/-- `isNaN(parseFloat(s))`: `parseFloat` skips leading white space and converts the longest
leading part that is a `StrDecimalLiteral`; the result is `NaN` exactly when no leading part
is one. -/
def parseFloatIsNaN (s : Str) : Bool :=
  !(trimStart s).inits.any isStrDecimalLiteral

/-! ## Order rows -/

/-- An order record `{ title, price }`. -/
structure OrderRecord where
  title : Str
  price : Str
  deriving DecidableEq, Repr

/-- The callback applied to each order-row element in `parseOrders`; `null` is `none`.
The destructuring `[, price]` takes index 1 of the split, `undefined` when there is none,
and `!price` holds for `undefined` and for the empty string. -/
def parseOrderRow (el : OrderRow) : Option OrderRecord :=
  let title := el.titleEls
  let rawPrice := el.priceEls
  match (split ' ' (trim (text rawPrice)))[1]? with
  | none => none
  | some price =>
    if price.isEmpty then none
    else if parseFloatIsNaN (replace ',' '.' price) then none
    else some { title := trim (text title), price := price }

/-- The call `$(val).toArray()` on one element: the array holding that element. -/
def wrapToArray (val : OrderRow) : List OrderRow := [val]

/-- `parseOrders`: the array of records and `null`s for a page. -/
def parseOrders (content : Markup) : List (Option OrderRecord) :=
  content.orderRows.flatMap fun val => (wrapToArray val).map parseOrderRow

/-- The token `parseOrders` reads as the price of a row: index 1 of the trimmed price text
split at each space character. -/
def priceToken (row : OrderRow) : Option Str := (split ' ' (trim (text row.priceEls)))[1]?

/-! ## Requests -/

/-- A GET request to the order-history URL: the `Cookie` header and the query parameters
`orderFilter` and `startIndex` (absent in the page-count request). -/
structure Request where
  cookie : Str
  orderFilter : Str
  startIndex : Option Nat
  deriving DecidableEq, Repr

/-- The remote service seen through the HTTP client: the document answering a request, or
`none` when the call is rejected. -/
abbrev Http := Request → Option Markup

/-- Why an asynchronous function rejected: a rejected HTTP call, a thrown `Error` with
its message, or a `RangeError` thrown by the language. -/
inductive Failure where
  | transport
  | error (message : Str)
  | rangeError
  deriving DecidableEq, Repr

/-- A finished asynchronous call: the requests it issued, in the order its own code issued
them, and how it settled. -/
structure Run (α : Type) where
  requests : List Request
  result : Except Failure α

/-- The credential constant of the source. -/
def COOKIE : Str := []

/-- The request built by `fetchPageCount`. -/
def pageCountRequest (cookie filter : Str) : Request :=
  { cookie := cookie, orderFilter := filter, startIndex := none }

/-- The request built by `fetchPage`. -/
def pageRequest (cookie : Str) (pageIndex : Nat) (filter : Str) : Request :=
  { cookie := cookie, orderFilter := filter, startIndex := some (pageIndex * ITEMS_PER_PAGE) }

/-- `fetchPageCount`. -/
def fetchPageCount (http : Http) (cookie filter : Str) : Except Failure (Option JSNum) :=
  match http (pageCountRequest cookie filter) with
  | none => Except.error Failure.transport
  | some data => Except.ok (parsePageCount data)

/-- `fetchPage`. -/
def fetchPage (http : Http) (cookie : Str) (pageIndex : Nat) (filter : Str) :
    Except Failure (List (Option OrderRecord)) :=
  match http (pageRequest cookie pageIndex filter) with
  | none => Except.error Failure.transport
  | some data => Except.ok (parseOrders data)

/-- `Promise.all` over settled calls: the list of values when all fulfilled, a rejection
otherwise. -/
def promiseAll {α : Type} : List (Except Failure α) → Except Failure (List α)
  | [] => Except.ok []
  | Except.error e :: _ => Except.error e
  | Except.ok a :: ps =>
    match promiseAll ps with
    | Except.error e => Except.error e
    | Except.ok as => Except.ok (a :: as)

/-- The length of `Array.from({ length: n })`: a negative number gives the empty array, and
a length from `2 ^ 32` on makes the array constructor throw a `RangeError`. -/
def arrayLength : Option JSNum → Except Failure Nat
  | some (JSNum.int z) =>
    if z.toNat < 2 ^ 32 then Except.ok z.toNat else Except.error Failure.rangeError
  | some (JSNum.inf false) => Except.error Failure.rangeError
  | _ => Except.ok 0

/-- `fetchOrders(cookie)(filter)`. -/
def fetchOrders (http : Http) (cookie : Str) (filter : Str) :
    Run (List (Option OrderRecord)) :=
  match fetchPageCount http cookie filter with
  | Except.error e => { requests := [pageCountRequest cookie filter], result := Except.error e }
  | Except.ok pageCount =>
    if !truthyNum pageCount then
      { requests := [pageCountRequest cookie filter],
        result := Except.error (Failure.error "Cannot fetch page count".toList) }
    else
      match arrayLength pageCount with
      | Except.error e =>
        { requests := [pageCountRequest cookie filter], result := Except.error e }
      | Except.ok length =>
        let pageIndexes := List.range length
        let ordersPromises := pageIndexes.map fun page => fetchPage http COOKIE page filter
        { requests :=
            pageCountRequest cookie filter ::
              pageIndexes.map fun page => pageRequest COOKIE page filter,
          result := (promiseAll ordersPromises).map List.flatten }

/-! ## The run -/

/-- The filter list of `main`. -/
def filters : List Str :=
  ["year-2020".toList, "year-2019".toList, "year-2018".toList, "year-2017".toList,
   "year-2016".toList, "year-2015".toList, "year-2014".toList, "year-2013".toList]

/-- What is handed to `fs.writeFile`: the order list given to `JSON.stringify` or to
`Papa.unparse`. -/
inductive FileData where
  | json (orders : List (Option OrderRecord))
  | csv (orders : List (Option OrderRecord))
  deriving DecidableEq, Repr

/-- One `fs.writeFile` call. -/
structure FileWrite where
  path : Str
  data : FileData
  deriving DecidableEq, Repr

/-- A finished run of `main`: the files written and whether it rejected. -/
structure MainRun where
  writes : List FileWrite
  rejected : Bool
  deriving DecidableEq, Repr

/-- Truthiness of an array entry: a record is truthy, `null` is falsy. -/
def truthyEntry (x : Option OrderRecord) : Bool := x.isSome

/-- The body of `main` over a list of filters. -/
def mainOver (http : Http) (filterList : List Str) : MainRun :=
  match promiseAll (filterList.map fun f => (fetchOrders http COOKIE f).result) with
  | Except.error _ => { writes := [], rejected := true }
  | Except.ok ordersRaw =>
    let orders := ordersRaw.flatten.filter truthyEntry
    { writes :=
        [{ path := "output.json".toList, data := FileData.json orders },
         { path := "output.csv".toList, data := FileData.csv orders }],
      rejected := false }

/-- `main`. -/
def main (http : Http) : MainRun := mainOver http filters

/-! ## Reference definitions and sample inputs -/

/-- The reading of the price text in the specification: the tokens separated by runs of one
or more spaces, tabs or newlines. -/
def specWhitespaceTokens (s : Str) : List Str :=
  (s.splitOnP fun c => c = ' ' || c = '\t' || c = '\n').filter fun t => !t.isEmpty

/-- A page reporting `25 orders` and holding a good row and a row with price text `$`. -/
def samplePage : Markup :=
  { orderCountEls := ["25 orders".toList],
    orderRows :=
      [{ titleEls := ["Book A".toList], priceEls := ["$ 12,99".toList] },
       { titleEls := ["Bad Row".toList], priceEls := ["$".toList] }] }

/-- A service answering every request with `samplePage`. -/
def sampleHttp : Http := fun _ => some samplePage

/-- A page without an order-count element. -/
def emptyPage : Markup := { orderCountEls := [], orderRows := [] }

/-- A service answering every request with `emptyPage`. -/
def emptyHttp : Http := fun _ => some emptyPage

/-- A page reporting `42949672960 orders`, that is `2 ^ 32` pages. -/
def limitPage : Markup := { orderCountEls := ["42949672960 orders".toList], orderRows := [] }

/-- A service answering every request with `limitPage`. -/
def limitHttp : Http := fun _ => some limitPage

/-- The record of the good row of `samplePage`. -/
def sampleRecord : OrderRecord := { title := "Book A".toList, price := "12,99".toList }

/-! ## Lemmas on strings and numbers -/

theorem isDecimalDigit_iff (c : Char) :
    isDecimalDigit c = true ↔ 48 ≤ c.toNat ∧ c.toNat ≤ 57 := by
  unfold isDecimalDigit isRadixDigit digitValue
  constructor
  · intro h
    by_contra hc
    simp only [hc, if_false] at h
    split_ifs at h <;> simp at h
  · intro h
    simp only [h, and_self, if_true, Option.some_bind]
    have : c.toNat - 48 < 10 := by omega
    simp [this]

theorem digitValue_digitChar (k : Nat) (hk : k < 10) :
    digitValue 10 (Nat.digitChar k) = some k := by
  interval_cases k <;> decide

theorem toDigitsCore_numeral (fuel : Nat) :
    ∀ (n : Nat) (acc : Str), n < fuel →
      ∃ pre : Str, Nat.toDigitsCore 10 fuel n acc = pre ++ acc ∧ pre ≠ [] ∧
        (∀ c ∈ pre, isDecimalDigit c = true) ∧ digitsValue 10 pre = n := by
  induction fuel with
  | zero => intro n acc h; omega
  | succ fuel ih =>
    intro n acc h
    have hd := digitValue_digitChar (n % 10) (Nat.mod_lt _ (by decide))
    unfold Nat.toDigitsCore
    by_cases h0 : n / 10 = 0
    · refine ⟨[Nat.digitChar (n % 10)], by simp [h0], by simp, ?_, ?_⟩
      · intro c hc
        simp only [List.mem_singleton] at hc
        subst hc
        simp [isDecimalDigit, isRadixDigit, hd]
      · simp only [digitsValue, List.foldl_cons, List.foldl_nil, hd, Option.getD_some]
        omega
    · have hlt : n / 10 < fuel := by omega
      obtain ⟨pre, h1, h2, h3, h4⟩ := ih (n / 10) (Nat.digitChar (n % 10) :: acc) hlt
      refine ⟨pre ++ [Nat.digitChar (n % 10)], by simp [h0, h1], by simp, ?_, ?_⟩
      · intro c hc
        rcases List.mem_append.1 hc with hc | hc
        · exact h3 c hc
        · simp only [List.mem_singleton] at hc
          subst hc
          simp [isDecimalDigit, isRadixDigit, hd]
      · unfold digitsValue at h4 ⊢
        simp only [List.foldl_append, List.foldl_cons, List.foldl_nil, h4, hd, Option.getD_some]
        omega

theorem numeral_spec (n : Nat) :
    (toString n).toList ≠ [] ∧ (∀ c ∈ (toString n).toList, isDecimalDigit c = true) ∧
      digitsValue 10 (toString n).toList = n := by
  obtain ⟨pre, h1, h2, h3, h4⟩ := toDigitsCore_numeral (n + 1) n [] (Nat.lt_succ_self n)
  have : (toString n).toList = pre := by
    show (Nat.repr n).toList = pre
    simp [Nat.repr, Nat.toDigits, h1, List.asString]
  rw [this]
  exact ⟨h2, h3, h4⟩

theorem isWhiteSpace_of_digit (c : Char) (h : isDecimalDigit c = true) :
    isWhiteSpace c = false := by
  have hc := (isDecimalDigit_iff c).1 h
  unfold isWhiteSpace
  simp only [Bool.or_eq_false_iff, Bool.and_eq_false_iff, beq_eq_false_iff_ne, ne_eq,
    decide_eq_false_iff_not]
  omega

theorem split_head_append (sep : Char) (ds rest : Str) (hds : ∀ c ∈ ds, c ≠ sep)
    (hrest : rest = [] ∨ rest.head? = some sep) :
    (split sep (ds ++ rest)).head? = some ds := by
  induction ds with
  | nil =>
    rcases hrest with h | h
    · subst h; rfl
    · cases rest with
      | nil => simp at h
      | cons r rs =>
        simp only [List.head?_cons, Option.some.injEq] at h
        subst h
        simp [split]
  | cons c cs ih =>
    have hc : c ≠ sep := hds c (List.mem_cons_self _ _)
    have ih := ih fun d hd => hds d (List.mem_cons_of_mem _ hd)
    simp only [List.cons_append, split, hc, if_false]
    cases hsp : split sep (cs ++ rest) with
    | nil => rw [hsp] at ih; simp at ih
    | cons t ts =>
      rw [hsp] at ih
      simp only [List.head?_cons, Option.some.injEq] at ih
      simp [ih]

theorem nearestDouble_of_lt (n : Nat) (h : n < 2 ^ 53) : nearestDouble n = some n := by
  unfold nearestDouble
  rw [if_pos h]

theorem parseInt_digits (ds : Str) (hne : ds ≠ [])
    (hds : ∀ c ∈ ds, isDecimalDigit c = true) (hlt : digitsValue 10 ds < 2 ^ 53) :
    parseInt ds = JSNum.int (digitsValue 10 ds) := by
  cases ds with
  | nil => exact absurd rfl hne
  | cons c cs =>
    have hc := hds c (List.mem_cons_self _ _)
    have hcr := (isDecimalDigit_iff c).1 hc
    have hws := isWhiteSpace_of_digit c hc
    have htrim : trimStart (c :: cs) = c :: cs := by
      simp [trimStart, List.dropWhile, hws]
    have hminus : c ≠ '-' := by
      intro h; subst h; revert hcr; decide
    have hplus : c ≠ '+' := by
      intro h; subst h; revert hcr; decide
    have hx : (c :: cs).take 2 ≠ ['0', 'x'] := by
      cases cs with
      | nil => simp
      | cons d ds =>
        have hd := (isDecimalDigit_iff d).1 (hds d (by simp))
        intro h
        simp only [List.take_succ_cons, List.take_zero, List.cons.injEq, and_true] at h
        have := h.2
        subst this; revert hd; decide
    have hX : (c :: cs).take 2 ≠ ['0', 'X'] := by
      cases cs with
      | nil => simp
      | cons d ds =>
        have hd := (isDecimalDigit_iff d).1 (hds d (by simp))
        intro h
        simp only [List.take_succ_cons, List.take_zero, List.cons.injEq, and_true] at h
        have := h.2
        subst this; revert hd; decide
    have htake : leadingDigits 10 (c :: cs) = c :: cs := by
      unfold leadingDigits
      rw [List.takeWhile_eq_self_iff]
      intro d hd
      exact hds d hd
    unfold parseInt
    simp only [htrim, List.head?_cons, Option.some.injEq, hminus, hplus, or_self, if_false,
      hx, hX, decide_False, Bool.false_eq_true]
    rw [htake, nearestDouble_of_lt _ hlt]
    simp

theorem mantissaShift_spec (x d : Nat) :
    ∀ (fuel s : Nat), 2 ^ 52 * d ≤ x * 2 ^ (s + fuel) →
      2 ^ 52 * d ≤ x * 2 ^ mantissaShift x d fuel s := by
  intro fuel
  induction fuel with
  | zero => intro s h; simpa [mantissaShift] using h
  | succ fuel ih =>
    intro s h
    unfold mantissaShift
    split_ifs with hc
    · exact hc
    · apply ih
      have : s + 1 + fuel = s + (fuel + 1) := by omega
      rw [this]; exact h

theorem div_ceil_aux (a P k : Nat) (hP : 0 < P) (h1 : 1 ≤ k) (h2 : k ≤ P) :
    (a * P + k + P - 1) / P = a + 1 := by
  have h : a * P + k + P - 1 = (k - 1) + P * (a + 1) := by
    have : P * (a + 1) = a * P + P := by ring
    omega
  rw [h, Nat.add_mul_div_left _ _ hP, Nat.div_eq_of_lt (by omega)]
  omega

theorem roundHalfEven_bounds (A T P : Nat) (h6 : 6 ≤ P) (hT1 : P ≤ T) (hT2 : T ≤ 9 * P) :
    ∃ k, 1 ≤ k ∧ k ≤ P ∧ roundHalfEven (10 * A + T) 10 = A + k := by
  unfold roundHalfEven
  simp only
  split_ifs with hc
  · exact ⟨(10 * A + T) / 10 + 1 - A, by omega, by omega, by omega⟩
  · exact ⟨(10 * A + T) / 10 - A, by omega, by omega, by omega⟩

theorem roundHalfEven_scaled (x P : Nat) (hP : 6 ≤ P) :
    (roundHalfEven (x * P) 10 + P - 1) / P = (x + 9) / 10 := by
  obtain ⟨a, b, hb, rfl⟩ : ∃ a b, b < 10 ∧ x = 10 * a + b :=
    ⟨x / 10, x % 10, Nat.mod_lt _ (by decide), by omega⟩
  have hA : (10 * a + b) * P = 10 * (a * P) + b * P := by ring
  rw [hA]
  rcases Nat.eq_zero_or_pos b with hb0 | hb0
  · subst hb0
    have hr : roundHalfEven (10 * (a * P) + 0 * P) 10 = a * P := by
      unfold roundHalfEven
      simp only [Nat.zero_mul, Nat.add_zero]
      have h0 : (10 * (a * P)) / 10 = a * P := by omega
      have h1 : (10 * (a * P)) % 10 = 0 := by omega
      simp [h0, h1]
    rw [hr]
    have : a * P + P - 1 = (P - 1) + P * a := by
      have : P * a = a * P := by ring
      omega
    rw [this, Nat.add_mul_div_left _ _ (by omega), Nat.div_eq_of_lt (by omega)]
    omega
  · have hT1 : P ≤ b * P := Nat.le_mul_of_pos_left P hb0
    have hT2 : b * P ≤ 9 * P := Nat.mul_le_mul_right P (by omega)
    obtain ⟨k, hk1, hk2, hk⟩ := roundHalfEven_bounds (a * P) (b * P) P hP hT1 hT2
    rw [hk, div_ceil_aux a P k (by omega) hk1 hk2]
    omega

/-- Below `2 ^ 53` the rounding of the quotient by 10 does not change its ceiling. -/
theorem ceilOfDiv_exact (x : Nat) (hx : x < 2 ^ 53) : ceilOfDiv x 10 = (x + 9) / 10 := by
  rcases Nat.eq_zero_or_pos x with h0 | h0
  · subst h0; decide
  · have hlt : x < 2 ^ 53 * 10 := by omega
    have hne : x ≠ 0 := by omega
    have hfuel : 2 ^ 52 * 10 ≤ x * 2 ^ (0 + (52 + 10)) := by
      have : 2 ^ 52 * 10 ≤ 1 * 2 ^ (0 + (52 + 10)) := by norm_num
      exact le_trans this (Nat.mul_le_mul_right _ h0)
    have hs := mantissaShift_spec x 10 (52 + 10) 0 hfuel
    have hP : 6 ≤ 2 ^ mantissaShift x 10 (52 + 10) 0 := by
      by_contra hcon
      have h5 : 2 ^ mantissaShift x 10 (52 + 10) 0 ≤ 5 := by omega
      have : x * 2 ^ mantissaShift x 10 (52 + 10) 0 ≤ x * 5 := Nat.mul_le_mul_left x h5
      omega
    unfold ceilOfDiv divDouble
    simp only [hne, if_false, hlt, if_true]
    exact roundHalfEven_scaled x _ hP

theorem parsePageCount_digits (content : Markup) (ds rest : Str)
    (htext : text content.orderCountEls = ds ++ rest)
    (hne : ds ≠ [])
    (hds : ∀ c ∈ ds, isDecimalDigit c = true)
    (hrest : rest = [] ∨ rest.head? = some ' ')
    (hlt : digitsValue 10 ds < 2 ^ 53) :
    parsePageCount content = some (JSNum.int (((digitsValue 10 ds + 9) / 10 : Nat) : Int)) := by
  have hsp : ∀ c ∈ ds, c ≠ ' ' := by
    intro c hc h
    have := (isDecimalDigit_iff c).1 (hds c hc)
    subst h; revert this; decide
  have hhead := split_head_append ' ' ds rest hsp hrest
  unfold parsePageCount
  simp only [htext, hhead]
  have : ds.isEmpty = false := by
    cases ds with
    | nil => exact absurd rfl hne
    | cons _ _ => rfl
  simp [this, parseInt_digits ds hne hds hlt, ceilDiv, ITEMS_PER_PAGE, ceilOfDiv_exact _ hlt]

theorem natCeil_eq_ceil (v : Nat) : (((v + 9) / 10 : Nat) : Int) = ⌈(v : ℚ) / 10⌉ := by
  have h := Rat.floor_intCast_div_natCast (-(v : Int)) 10
  have h2 : ⌈(v : ℚ) / 10⌉ = -⌊(((-(v : Int) : Int) : ℚ)) / ((10 : Nat) : ℚ)⌋ := by
    rw [← Int.ceil_neg]
    congr 1
    push_cast
    ring
  rw [h2, h]
  push_cast
  omega

/-! ## Page count -/

/-- C1, as stated, fails: for the text `9007199254741001 orders` the numeral is read as the
nearest double, 9007199254741000, and the result is 900719925474100, whereas
`ceil(V / 10)` is 900719925474101. -/
theorem parsePageCount_rounds_large_count :
    parsePageCount ⟨["9007199254741001 orders".toList], []⟩ =
      some (JSNum.int 900719925474100) ∧
    ⌈((9007199254741001 : Nat) : ℚ) / (ITEMS_PER_PAGE : ℚ)⌉ = 900719925474101 ∧
    parsePageCount ⟨["9007199254741001 orders".toList], []⟩ ≠
      some (JSNum.int ⌈((9007199254741001 : Nat) : ℚ) / (ITEMS_PER_PAGE : ℚ)⌉) := by
  have h1 : parsePageCount ⟨["9007199254741001 orders".toList], []⟩ =
      some (JSNum.int 900719925474100) := by decide
  have h2 : ⌈((9007199254741001 : Nat) : ℚ) / (ITEMS_PER_PAGE : ℚ)⌉ = 900719925474101 := by
    have h := natCeil_eq_ceil 9007199254741001
    simp only [ITEMS_PER_PAGE]
    rw [show (((10 : Nat) : ℚ)) = 10 by norm_num, ← h]
    decide
  refine ⟨h1, h2, ?_⟩
  rw [h1, h2]
  decide

/-- C1, amended. When the text of the order-count element starts with the decimal numeral
of an integer `V` with `1 ≤ V < 2 ^ 53` (or with any digit string of such a value) that is
followed by a space or by the end of the text, `parsePageCount` returns `ceil(V / 10)`; the
texts `1`, `10`, `11` and `25` give 1, 1, 2 and 3. -/
theorem parsePageCount_ceil :
    (∀ (content : Markup) (V : Nat) (rest : Str),
      1 ≤ V → V < 2 ^ 53 →
      text content.orderCountEls = (toString V).toList ++ rest →
      (rest = [] ∨ rest.head? = some ' ') →
      parsePageCount content = some (JSNum.int ⌈(V : ℚ) / (ITEMS_PER_PAGE : ℚ)⌉)) ∧
    (∀ (content : Markup) (ds rest : Str) (V : Nat),
      text content.orderCountEls = ds ++ rest →
      ds ≠ [] → (∀ c ∈ ds, isDecimalDigit c = true) → digitsValue 10 ds = V →
      (rest = [] ∨ rest.head? = some ' ') →
      1 ≤ V → V < 2 ^ 53 →
      parsePageCount content = some (JSNum.int ⌈(V : ℚ) / (ITEMS_PER_PAGE : ℚ)⌉)) ∧
    parsePageCount ⟨["1".toList], []⟩ = some (JSNum.int 1) ∧
    parsePageCount ⟨["10 orders".toList], []⟩ = some (JSNum.int 1) ∧
    parsePageCount ⟨["11 orders".toList], []⟩ = some (JSNum.int 2) ∧
    parsePageCount ⟨["25 orders".toList], []⟩ = some (JSNum.int 3) := by
  have key : ∀ (content : Markup) (ds rest : Str) (V : Nat),
      text content.orderCountEls = ds ++ rest →
      ds ≠ [] → (∀ c ∈ ds, isDecimalDigit c = true) → digitsValue 10 ds = V →
      (rest = [] ∨ rest.head? = some ' ') → V < 2 ^ 53 →
      parsePageCount content = some (JSNum.int ⌈(V : ℚ) / (ITEMS_PER_PAGE : ℚ)⌉) := by
    intro content ds rest V htext hne hds hV hrest hlt
    rw [parsePageCount_digits content ds rest htext hne hds hrest (hV ▸ hlt), hV,
      natCeil_eq_ceil]
    simp [ITEMS_PER_PAGE]
  refine ⟨?_, ?_, by decide, by decide, by decide, by decide⟩
  · intro content V rest _ hlt htext hrest
    obtain ⟨h1, h2, h3⟩ := numeral_spec V
    exact key content _ rest V htext h1 h2 h3 hrest hlt
  · intro content ds rest V htext hne hds hV hrest _ hlt
    exact key content ds rest V htext hne hds hV hrest hlt

/-- C1, amended, at the text `25 orders`: three pages. -/
theorem parsePageCount_ceil_witness :
    parsePageCount ⟨["25 orders".toList], []⟩ =
      some (JSNum.int ⌈((25 : Nat) : ℚ) / (ITEMS_PER_PAGE : ℚ)⌉) :=
  parsePageCount_ceil.1 ⟨["25 orders".toList], []⟩ 25 " orders".toList
    (by decide) (by decide) (by decide) (by decide)

/-- C2, as stated, fails: for the text `0 orders` the result is the number 0, which is
neither `null` nor a positive integer. -/
theorem parsePageCount_zero_is_not_null :
    parsePageCount ⟨["0 orders".toList], []⟩ = some (JSNum.int 0) ∧
    parsePageCount ⟨["0 orders".toList], []⟩ ≠ none ∧
    ¬ ∃ n : Int, 0 < n ∧ parsePageCount ⟨["0 orders".toList], []⟩ = some (JSNum.int n) := by
  refine ⟨by decide, by decide, ?_⟩
  rintro ⟨n, hn, h⟩
  have h0 : parsePageCount ⟨["0 orders".toList], []⟩ = some (JSNum.int 0) := by decide
  rw [h0] at h
  simp only [Option.some.injEq, JSNum.int.injEq] at h
  omega

/-- C2, amended. `parsePageCount` returns `null` when no element matches the order-count
selector and when the text of the element is empty; when the text starts with a decimal
numeral of value 0 followed by a space or the end of the text, it returns the number 0, not
`null`; both results are falsy. -/
theorem parsePageCount_null_or_zero :
    (∀ content : Markup, content.orderCountEls = [] → parsePageCount content = none) ∧
    (∀ content : Markup, text content.orderCountEls = [] → parsePageCount content = none) ∧
    (∀ (content : Markup) (ds rest : Str),
      text content.orderCountEls = ds ++ rest →
      ds ≠ [] → (∀ c ∈ ds, isDecimalDigit c = true) → digitsValue 10 ds = 0 →
      (rest = [] ∨ rest.head? = some ' ') →
      parsePageCount content = some (JSNum.int 0)) ∧
    truthyNum none = false ∧ truthyNum (some (JSNum.int 0)) = false := by
  refine ⟨?_, ?_, ?_, rfl, by decide⟩
  · intro content h
    simp [parsePageCount, h, text, split]
  · intro content h
    simp [parsePageCount, h, split]
  · intro content ds rest htext hne hds hV hrest
    rw [parsePageCount_digits content ds rest htext hne hds hrest (by rw [hV]; decide), hV]
    rfl

/-- C2, amended, at a document with no order-count element and at the text `0 orders`. -/
theorem parsePageCount_null_or_zero_witness :
    parsePageCount ⟨[], []⟩ = none ∧
    parsePageCount ⟨["0 orders".toList], []⟩ = some (JSNum.int 0) :=
  ⟨parsePageCount_null_or_zero.1 ⟨[], []⟩ rfl,
   parsePageCount_null_or_zero.2.2.1 ⟨["0 orders".toList], []⟩ "0".toList " orders".toList
    (by decide) (by decide) (by decide) (by decide) (by decide)⟩

/-! ## Order rows -/

theorem parseOrders_eq_map (content : Markup) :
    parseOrders content = content.orderRows.map parseOrderRow := by
  unfold parseOrders wrapToArray
  simp only [List.map_cons, List.map_nil]
  exact (List.map_eq_flatMap parseOrderRow content.orderRows).symm

theorem parseOrders_getElem? (content : Markup) (i : Nat) :
    (parseOrders content)[i]? = (content.orderRows[i]?).map parseOrderRow := by
  rw [parseOrders_eq_map, List.getElem?_map]

theorem parseOrderRow_none_of_nan (row : OrderRow) (t : Str) (ht : priceToken row = some t)
    (hnan : parseFloatIsNaN (replace ',' '.' t) = true) : parseOrderRow row = none := by
  unfold priceToken at ht
  unfold parseOrderRow
  simp only [ht]
  split_ifs <;> rfl

theorem parseOrderRow_some_of_token (row : OrderRow) (t : Str) (ht : priceToken row = some t)
    (hne : t ≠ []) (hnum : parseFloatIsNaN (replace ',' '.' t) = false) :
    parseOrderRow row = some { title := trim (text row.titleEls), price := t } := by
  unfold priceToken at ht
  unfold parseOrderRow
  have : t.isEmpty = false := by
    cases t with
    | nil => exact absurd rfl hne
    | cons _ _ => rfl
  simp [ht, this, hnum]

theorem parseOrderRow_eq_some (row : OrderRow) (r : OrderRecord)
    (h : parseOrderRow row = some r) :
    r.title = trim (text row.titleEls) ∧ priceToken row = some r.price ∧ r.price ≠ [] ∧
      parseFloatIsNaN (replace ',' '.' r.price) = false := by
  unfold parseOrderRow at h
  unfold priceToken
  cases ht : (split ' ' (trim (text row.priceEls)))[1]? with
  | none => simp [ht] at h
  | some t =>
    simp only [ht] at h
    split_ifs at h with h1 h2
    simp only [Option.some.injEq] at h
    subst h
    refine ⟨rfl, rfl, ?_, by simpa using h2⟩
    intro h0
    simp only at h0
    simp [h0] at h1

/-- C3, as stated, fails: the token `12abc` is not a floating-point literal, also after
comma normalization, and the row is kept, with that token as its price. -/
theorem parseOrders_keeps_token_with_numeric_start :
    priceToken ⟨["Book".toList], ["$ 12abc".toList]⟩ = some "12abc".toList ∧
    isStrDecimalLiteral (replace ',' '.' "12abc".toList) = false ∧
    parseOrders ⟨[], [⟨["Book".toList], ["$ 12abc".toList]⟩]⟩ =
      [some { title := "Book".toList, price := "12abc".toList }] := by
  decide

/-- C3, amended. A row whose second price token is present but is such that, after its
first comma is replaced by a period and leading white space is skipped, no leading part of it
is a floating-point literal, yields `null`; so does the token `abc`, while the token `12,50`
is kept. -/
theorem parseOrders_drops_unparseable_price :
    (∀ (content : Markup) (i : Nat) (row : OrderRow) (t : Str),
      content.orderRows[i]? = some row →
      priceToken row = some t →
      (∀ p : Str, p <+: trimStart (replace ',' '.' t) → isStrDecimalLiteral p = false) →
      (parseOrders content)[i]? = some none) ∧
    parseOrders ⟨[], [⟨["Book".toList], ["$ abc".toList]⟩]⟩ = [none] ∧
    parseOrders ⟨[], [⟨["Book".toList], ["$ 12,50".toList]⟩]⟩ =
      [some { title := "Book".toList, price := "12,50".toList }] := by
  refine ⟨?_, by decide, by decide⟩
  intro content i row t hrow ht hlit
  rw [parseOrders_getElem?, hrow]
  have hnan : parseFloatIsNaN (replace ',' '.' t) = true := by
    unfold parseFloatIsNaN
    simp only [Bool.not_eq_true', List.any_eq_false, List.mem_inits]
    intro p hp
    simp [hlit p hp]
  simp [parseOrderRow_none_of_nan row t ht hnan]

/-- C3, amended, at a row whose price text is `$ abc`. -/
theorem parseOrders_drops_unparseable_price_witness :
    (parseOrders ⟨[], [⟨["Book".toList], ["$ abc".toList]⟩]⟩)[0]? = some none :=
  parseOrders_drops_unparseable_price.1 ⟨[], [⟨["Book".toList], ["$ abc".toList]⟩]⟩ 0
    ⟨["Book".toList], ["$ abc".toList]⟩ "abc".toList (by decide) (by decide)
    (fun p hp =>
      (by decide : ∀ q ∈ (trimStart (replace ',' '.' "abc".toList)).inits,
        isStrDecimalLiteral q = false) p ((List.mem_inits p _).2 hp))

/-- C4. `parseOrders` is total and returns one entry per matched order row, in document
order: entry `i` is the outcome of row `i`, `null` when the price text of the row has no
second token; the records kept are those of the rows, in the order of the rows. -/
theorem parseOrders_one_entry_per_row (content : Markup) :
    (parseOrders content).length = content.orderRows.length ∧
    (∀ (i : Nat) (row : OrderRow), content.orderRows[i]? = some row →
      (parseOrders content)[i]? = some (parseOrderRow row)) ∧
    (∀ (i : Nat) (row : OrderRow), content.orderRows[i]? = some row →
      priceToken row = none → (parseOrders content)[i]? = some none) ∧
    (parseOrders content).filterMap id = content.orderRows.filterMap parseOrderRow := by
  refine ⟨?_, ?_, ?_, ?_⟩
  · simp [parseOrders_eq_map]
  · intro i row hrow
    simp [parseOrders_getElem?, hrow]
  · intro i row hrow htok
    unfold priceToken at htok
    simp [parseOrders_getElem?, hrow, parseOrderRow, htok]
  · simp [parseOrders_eq_map, List.filterMap_map]

/-- C4 at a page with a good row and a row whose price text is `$`. -/
theorem parseOrders_one_entry_per_row_witness :
    (parseOrders ⟨[], [⟨["Book A".toList], ["$ 12,99".toList]⟩,
        ⟨["Bad Row".toList], ["$".toList]⟩]⟩).length = 2 ∧
    (parseOrders ⟨[], [⟨["Book A".toList], ["$ 12,99".toList]⟩,
        ⟨["Bad Row".toList], ["$".toList]⟩]⟩)[1]? = some none :=
  ⟨(parseOrders_one_entry_per_row _).1,
   (parseOrders_one_entry_per_row _).2.2.1 1 ⟨["Bad Row".toList], ["$".toList]⟩
    (by decide) (by decide)⟩

/-- C5. A record emitted for a row has as title the trimmed text of the title selection of
the row, and as price the very token that was tested (index 1 of the split of the trimmed
price text), not its comma-normalized form: the token `12,50` is stored as `12,50`. -/
theorem parseOrders_record_fields :
    (∀ (content : Markup) (i : Nat) (row : OrderRow) (r : OrderRecord),
      content.orderRows[i]? = some row →
      (parseOrders content)[i]? = some (some r) →
      r.title = trim (text row.titleEls) ∧ priceToken row = some r.price ∧
        parseFloatIsNaN (replace ',' '.' r.price) = false) ∧
    parseOrders ⟨[], [⟨["  Book A\n".toList], ["EUR 12,50".toList]⟩]⟩ =
      [some { title := "Book A".toList, price := "12,50".toList }] ∧
    replace ',' '.' "12,50".toList = "12.50".toList := by
  refine ⟨?_, by decide, by decide⟩
  intro content i row r hrow hrec
  rw [parseOrders_getElem?, hrow] at hrec
  simp only [Option.map_some', Option.some.injEq] at hrec
  have h := parseOrderRow_eq_some row r hrec
  exact ⟨h.1, h.2.1, h.2.2.2⟩

/-- C5 at a row with title text `  Book A` and price text `EUR 12,50`. -/
theorem parseOrders_record_fields_witness :
    ({ title := "Book A".toList, price := "12,50".toList } : OrderRecord).title =
        trim (text ["  Book A\n".toList]) ∧
      priceToken ⟨["  Book A\n".toList], ["EUR 12,50".toList]⟩ = some "12,50".toList ∧
      parseFloatIsNaN (replace ',' '.' "12,50".toList) = false :=
  parseOrders_record_fields.1 ⟨[], [⟨["  Book A\n".toList], ["EUR 12,50".toList]⟩]⟩ 0
    ⟨["  Book A\n".toList], ["EUR 12,50".toList]⟩
    { title := "Book A".toList, price := "12,50".toList } (by decide) (by decide)

/-! ## Fetching -/

theorem promiseAll_ok {α β : Type} (l : List β) (g : β → Except Failure α) (v : β → α)
    (h : ∀ b ∈ l, g b = Except.ok (v b)) :
    promiseAll (l.map g) = Except.ok (l.map v) := by
  induction l with
  | nil => rfl
  | cons b bs ih =>
    have hb := h b (List.mem_cons_self _ _)
    have ih := ih fun c hc => h c (List.mem_cons_of_mem _ hc)
    simp only [List.map_cons, hb, promiseAll, ih]

theorem promiseAll_error {α β : Type} (l : List β) (g : β → Except Failure α) (b : β)
    (e : Failure) (hb : b ∈ l) (h : g b = Except.error e) :
    ∃ e1, promiseAll (l.map g) = Except.error e1 := by
  induction l with
  | nil => simp at hb
  | cons c cs ih =>
    simp only [List.map_cons]
    cases hc : g c with
    | error e2 => exact ⟨e2, by simp [promiseAll]⟩
    | ok a =>
      have hmem : b ∈ cs := by
        rcases List.mem_cons.1 hb with h1 | h1
        · subst h1; rw [h] at hc; cases hc
        · exact h1
      obtain ⟨e1, he1⟩ := ih hmem
      exact ⟨e1, by simp [promiseAll, he1]⟩

theorem fetchOrders_of_pages (http : Http) (cookie filter : Str) (count : Markup) (n : Nat)
    (pages : Nat → Markup)
    (hcount : http (pageCountRequest cookie filter) = some count)
    (hn : parsePageCount count = some (JSNum.int n)) (hpos : 1 ≤ n) (hlim : n < 2 ^ 32)
    (hpages : ∀ i < n, http (pageRequest COOKIE i filter) = some (pages i)) :
    (fetchOrders http cookie filter).requests =
        pageCountRequest cookie filter ::
          (List.range n).map (fun i => pageRequest COOKIE i filter) ∧
      (fetchOrders http cookie filter).result =
        Except.ok ((List.range n).flatMap fun i => parseOrders (pages i)) := by
  have htruthy : truthyNum (some (JSNum.int n)) = true := by
    simp only [truthyNum, ne_eq, decide_eq_true_eq]
    omega
  have hlen : arrayLength (some (JSNum.int n)) = Except.ok n := by
    simp only [arrayLength, Int.toNat_ofNat]
    rw [if_pos hlim]
  have hall : promiseAll ((List.range n).map fun page => fetchPage http COOKIE page filter) =
      Except.ok ((List.range n).map fun i => parseOrders (pages i)) := by
    apply promiseAll_ok
    intro i hi
    simp [fetchPage, hpages i (List.mem_range.1 hi)]
  unfold fetchOrders
  simp only [fetchPageCount, hcount, hn, htruthy, hlen, hall]
  exact ⟨rfl, rfl⟩

theorem fetchOrders_of_falsy (http : Http) (cookie filter : Str) (count : Markup)
    (hcount : http (pageCountRequest cookie filter) = some count)
    (hfalsy : truthyNum (parsePageCount count) = false) :
    (fetchOrders http cookie filter).requests = [pageCountRequest cookie filter] ∧
      (fetchOrders http cookie filter).result =
        Except.error (Failure.error "Cannot fetch page count".toList) := by
  unfold fetchOrders
  simp only [fetchPageCount, hcount, hfalsy]
  exact ⟨rfl, rfl⟩

theorem mainOver_of_error (http : Http) (filterList : List Str) (f : Str) (e : Failure)
    (hf : f ∈ filterList) (h : (fetchOrders http COOKIE f).result = Except.error e) :
    mainOver http filterList = { writes := [], rejected := true } := by
  obtain ⟨e1, he1⟩ :=
    promiseAll_error filterList (fun f => (fetchOrders http COOKIE f).result) f e hf h
  unfold mainOver
  rw [he1]

theorem mainOver_of_ok (http : Http) (filterList : List Str)
    (seq : Str → List (Option OrderRecord))
    (h : ∀ f ∈ filterList, (fetchOrders http COOKIE f).result = Except.ok (seq f)) :
    mainOver http filterList =
      { writes :=
          [{ path := "output.json".toList,
             data := FileData.json ((filterList.flatMap seq).filter truthyEntry) },
           { path := "output.csv".toList,
             data := FileData.csv ((filterList.flatMap seq).filter truthyEntry) }],
        rejected := false } := by
  have hall := promiseAll_ok filterList (fun f => (fetchOrders http COOKIE f).result) seq h
  unfold mainOver
  rw [hall]
  simp [List.flatMap_def]

/-- C6, as stated, fails: for the page-count text `42949672960 orders` the page count is
`2 ^ 32 ≥ 1` and every page request would be answered, but building the index array throws
a `RangeError`: `fetchOrders` rejects having issued the page-count request only. -/
theorem fetchOrders_rejects_at_array_limit :
    parsePageCount limitPage = some (JSNum.int (2 ^ 32)) ∧
    (∀ r : Request, limitHttp r = some limitPage) ∧
    (fetchOrders limitHttp COOKIE "year-2020".toList).requests =
      [{ cookie := COOKIE, orderFilter := "year-2020".toList, startIndex := none }] ∧
    (fetchOrders limitHttp COOKIE "year-2020".toList).result =
      Except.error Failure.rangeError := by
  have h1 : parsePageCount limitPage = some (JSNum.int (2 ^ 32)) := by decide
  refine ⟨h1, fun _ => rfl, ?_, ?_⟩
  · unfold fetchOrders
    simp only [fetchPageCount, limitHttp, h1]
    rfl
  · unfold fetchOrders
    simp only [fetchPageCount, limitHttp, h1]
    rfl

/-- C6, amended. When the page-count document of a filter gives a page count `n` with
`1 ≤ n < 2 ^ 32` and the service answers the page requests, `fetchOrders` issues, after the
page-count request, exactly the requests for the pages `0, …, n - 1`, page `i` with
`startIndex = 10 * i` and the same filter, and returns the concatenation of `parseOrders` of
the pages in page-index order. -/
theorem fetchOrders_pages_in_order (http : Http) (cookie filter : Str) (count : Markup)
    (n : Nat) (pages : Nat → Markup)
    (hcount : http (pageCountRequest cookie filter) = some count)
    (hn : parsePageCount count = some (JSNum.int n)) (hpos : 1 ≤ n) (hlim : n < 2 ^ 32)
    (hpages : ∀ i < n, http (pageRequest COOKIE i filter) = some (pages i)) :
    (fetchOrders http cookie filter).requests =
        { cookie := cookie, orderFilter := filter, startIndex := none } ::
          (List.range n).map
            (fun i => { cookie := COOKIE, orderFilter := filter, startIndex := some (10 * i) }) ∧
      (fetchOrders http cookie filter).result =
        Except.ok ((List.range n).flatMap fun i => parseOrders (pages i)) := by
  have h := fetchOrders_of_pages http cookie filter count n pages hcount hn hpos hlim hpages
  refine ⟨?_, h.2⟩
  rw [h.1]
  simp [pageCountRequest, pageRequest, ITEMS_PER_PAGE, Nat.mul_comm]

/-- C6, amended, at the filter `year-2020` of a service answering with `samplePage`: three
pages. -/
theorem fetchOrders_pages_in_order_witness :
    (fetchOrders sampleHttp COOKIE "year-2020".toList).requests =
        { cookie := COOKIE, orderFilter := "year-2020".toList, startIndex := none } ::
          (List.range 3).map
            (fun i => { cookie := COOKIE, orderFilter := "year-2020".toList,
                        startIndex := some (10 * i) }) ∧
      (fetchOrders sampleHttp COOKIE "year-2020".toList).result =
        Except.ok ((List.range 3).flatMap fun _ => parseOrders samplePage) :=
  fetchOrders_pages_in_order sampleHttp COOKIE "year-2020".toList samplePage 3
    (fun _ => samplePage) rfl (by decide) (by decide) (by decide) (fun _ _ => rfl)

/-- C7. When the page-count document has no element matching the order-count selector, or
more generally `parsePageCount` yields `null` or zero on it, `fetchOrders` rejects with the
error `Cannot fetch page count` having issued the page-count request only, and a run of
`main` in which this happens for one of its filters rejects and writes no file. -/
theorem fetchOrders_page_count_unavailable (http : Http) (cookie filter : Str)
    (count : Markup)
    (hcount : http (pageCountRequest cookie filter) = some count)
    (hnone : count.orderCountEls = [] ∨ parsePageCount count = none ∨
      parsePageCount count = some (JSNum.int 0)) :
    (fetchOrders http cookie filter).result =
        Except.error (Failure.error "Cannot fetch page count".toList) ∧
      (fetchOrders http cookie filter).requests = [pageCountRequest cookie filter] ∧
      (∀ r ∈ (fetchOrders http cookie filter).requests, r.startIndex = none) ∧
      (cookie = COOKIE → ∀ filterList : List Str, filter ∈ filterList →
        (mainOver http filterList).rejected = true ∧ (mainOver http filterList).writes = []) ∧
      (cookie = COOKIE → filter ∈ filters →
        (main http).rejected = true ∧ (main http).writes = []) := by
  have hfalsy : truthyNum (parsePageCount count) = false := by
    rcases hnone with h | h | h
    · have : parsePageCount count = none := by simp [parsePageCount, h, text, split]
      rw [this]; rfl
    · rw [h]; rfl
    · rw [h]; decide
  have h := fetchOrders_of_falsy http cookie filter count hcount hfalsy
  have hmain : cookie = COOKIE → ∀ filterList : List Str, filter ∈ filterList →
      (mainOver http filterList).rejected = true ∧ (mainOver http filterList).writes = [] := by
    intro hc filterList hf
    subst hc
    rw [mainOver_of_error http filterList filter _ hf h.2]
    exact ⟨rfl, rfl⟩
  refine ⟨h.2, h.1, ?_, hmain, fun hc hf => hmain hc filters hf⟩
  intro r hr
  rw [h.1] at hr
  simp only [List.mem_singleton] at hr
  subst hr
  rfl

/-- C7 at the filter `year-2018` of a service answering with `emptyPage`. -/
theorem fetchOrders_page_count_unavailable_witness :
    (fetchOrders emptyHttp COOKIE "year-2018".toList).result =
        Except.error (Failure.error "Cannot fetch page count".toList) ∧
      (fetchOrders emptyHttp COOKIE "year-2018".toList).requests =
        [pageCountRequest COOKIE "year-2018".toList] ∧
      (main emptyHttp).rejected = true ∧ (main emptyHttp).writes = [] :=
  have h := fetchOrders_page_count_unavailable emptyHttp COOKIE "year-2018".toList emptyPage
    rfl (Or.inl rfl)
  ⟨h.1, h.2.1, h.2.2.2.2 rfl (by decide)⟩

/-- C8. When `fetchOrders` fulfils for every filter, the order list `main` serialises into
both files is the concatenation of the per-filter sequences, in filter order, with the
`null` entries removed: it holds no `null`, and each record as many times as the sequences
do; when every filter has a page count from 1 to `2 ^ 32 - 1` and its pages are answered,
it is the concatenation of `parseOrders` over all pages of all filters without its `null`s.  For one filter reporting `25 orders` whose three pages are
`samplePage`, it is three times the record of `Book A`. -/
theorem main_run_result :
    (∀ (http : Http) (filterList : List Str) (seq : Str → List (Option OrderRecord)),
      (∀ f ∈ filterList, (fetchOrders http COOKIE f).result = Except.ok (seq f)) →
      (mainOver http filterList).rejected = false ∧
      (mainOver http filterList).writes =
        [{ path := "output.json".toList,
           data := FileData.json ((filterList.flatMap seq).filter truthyEntry) },
         { path := "output.csv".toList,
           data := FileData.csv ((filterList.flatMap seq).filter truthyEntry) }] ∧
      none ∉ (filterList.flatMap seq).filter truthyEntry ∧
      ∀ r : OrderRecord, ((filterList.flatMap seq).filter truthyEntry).count (some r) =
        (filterList.flatMap seq).count (some r)) ∧
    (∀ (http : Http) (filterList : List Str) (count : Str → Markup) (n : Str → Nat)
      (pages : Str → Nat → Markup),
      (∀ f ∈ filterList, http (pageCountRequest COOKIE f) = some (count f) ∧
        parsePageCount (count f) = some (JSNum.int (n f)) ∧ 1 ≤ n f ∧ n f < 2 ^ 32 ∧
        ∀ i < n f, http (pageRequest COOKIE i f) = some (pages f i)) →
      (mainOver http filterList).writes =
        [{ path := "output.json".toList,
           data := FileData.json ((filterList.flatMap fun f =>
             (List.range (n f)).flatMap fun i => parseOrders (pages f i)).filter truthyEntry) },
         { path := "output.csv".toList,
           data := FileData.csv ((filterList.flatMap fun f =>
             (List.range (n f)).flatMap fun i => parseOrders (pages f i)).filter truthyEntry) }]) ∧
    (∀ http : Http, main http = mainOver http filters) ∧
    mainOver sampleHttp ["year-2020".toList] =
      { writes :=
          [{ path := "output.json".toList,
             data := FileData.json [some sampleRecord, some sampleRecord, some sampleRecord] },
           { path := "output.csv".toList,
             data := FileData.csv [some sampleRecord, some sampleRecord, some sampleRecord] }],
        rejected := false } := by
  refine ⟨?_, ?_, fun _ => rfl, by decide⟩
  · intro http filterList seq h
    rw [mainOver_of_ok http filterList seq h]
    refine ⟨rfl, rfl, ?_, ?_⟩
    · simp [truthyEntry]
    · intro r
      rw [List.count_filter]
      rfl
  · intro http filterList count n pages h
    rw [mainOver_of_ok http filterList
      (fun f => (List.range (n f)).flatMap fun i => parseOrders (pages f i))]
    intro f hf
    obtain ⟨h1, h2, h3, h4, h5⟩ := h f hf
    exact (fetchOrders_of_pages http COOKIE f (count f) (n f) (pages f) h1 h2 h3 h4 h5).2

/-- C8 at the single filter `year-2020` of a service answering with `samplePage`. -/
theorem main_run_result_witness :
    (mainOver sampleHttp ["year-2020".toList]).rejected = false ∧
      (mainOver sampleHttp ["year-2020".toList]).writes =
        [{ path := "output.json".toList,
           data := FileData.json ((["year-2020".toList].flatMap fun _ =>
             (List.range 3).flatMap fun _ => parseOrders samplePage).filter truthyEntry) },
         { path := "output.csv".toList,
           data := FileData.csv ((["year-2020".toList].flatMap fun _ =>
             (List.range 3).flatMap fun _ => parseOrders samplePage).filter truthyEntry) }] :=
  have h := main_run_result.1 sampleHttp ["year-2020".toList]
    (fun _ => (List.range 3).flatMap fun _ => parseOrders samplePage)
    (fun f _ => (fetchOrders_of_pages sampleHttp COOKIE f samplePage 3 (fun _ => samplePage)
      rfl (by decide) (by decide) (by decide) (fun _ _ => rfl)).2)
  ⟨h.1, h.2.1⟩

/-- C9, as stated, fails: the trimmed price text `EUR  12,99`, with two spaces, split on
white space has the second token `12,99`, which parses as a number after comma
normalization, and `parseOrders` emits no record for the row. -/
theorem parseOrders_double_space_dropped :
    (specWhitespaceTokens (trim "EUR  12,99".toList))[1]? = some "12,99".toList ∧
    parseFloatIsNaN (replace ',' '.' "12,99".toList) = false ∧
    priceToken ⟨["Book A".toList], ["EUR  12,99".toList]⟩ = some [] ∧
    parseOrders ⟨[], [⟨["Book A".toList], ["EUR  12,99".toList]⟩]⟩ = [none] := by
  decide

/-- C9, amended. The price token is index 1 of the trimmed price text split at each single
space character: a row for which that token exists, is not empty and parses as a number
after comma normalization yields a record whose price is that token; the price text
`EUR 12,99` gives the price `12,99`. -/
theorem parseOrders_price_is_second_space_token :
    (∀ (content : Markup) (i : Nat) (row : OrderRow) (t : Str),
      content.orderRows[i]? = some row →
      (split ' ' (trim (text row.priceEls)))[1]? = some t → t ≠ [] →
      parseFloatIsNaN (replace ',' '.' t) = false →
      (parseOrders content)[i]? =
        some (some { title := trim (text row.titleEls), price := t })) ∧
    parseOrders ⟨[], [⟨["Book A".toList], ["EUR 12,99".toList]⟩]⟩ =
      [some { title := "Book A".toList, price := "12,99".toList }] := by
  refine ⟨?_, by decide⟩
  intro content i row t hrow ht hne hnum
  rw [parseOrders_getElem?, hrow]
  simp [parseOrderRow_some_of_token row t ht hne hnum]

/-- C9, amended, at a row with price text `EUR 12,99`. -/
theorem parseOrders_price_is_second_space_token_witness :
    (parseOrders ⟨[], [⟨["Book A".toList], ["EUR 12,99".toList]⟩]⟩)[0]? =
      some (some { title := trim (text ["Book A".toList]), price := "12,99".toList }) :=
  parseOrders_price_is_second_space_token.1
    ⟨[], [⟨["Book A".toList], ["EUR 12,99".toList]⟩]⟩ 0
    ⟨["Book A".toList], ["EUR 12,99".toList]⟩ "12,99".toList
    (by decide) (by decide) (by decide) (by decide)

/-- C10 at the credential `session=abc`: the page-count request carries the credential, and
the two order-page requests carry the constant `COOKIE`, the empty string, instead. -/
theorem fetchOrders_page_requests_use_constant :
    (fetchOrders (fun _ => some ⟨["15 orders".toList], []⟩) "session=abc".toList
        "year-2020".toList).requests =
      [{ cookie := "session=abc".toList, orderFilter := "year-2020".toList,
         startIndex := none },
       { cookie := [], orderFilter := "year-2020".toList, startIndex := some 0 },
       { cookie := [], orderFilter := "year-2020".toList, startIndex := some 10 }] := by
  decide

end AmazonOrders
